import Mathlib

/-!
Verification of the snake movement/topology engine of `bevy_demo_snake`.

The Rust sources are embedded shallowly: the ECS components that carry game
state (grid `Position`, `Dir`, `LastDirection`, the `Ate` flag and the
`NextSegment` chain of body segments) become a `Snake` record, and each
per-frame system (`move_snake`, `player_input`, `update_timer`/`reset_timer`,
`check_border_collision`, `check_self_collision`, and the classifier functions
of `src/snake/mod.rs`) becomes a pure function on that record.
-/

namespace BevySnake

/-- Grid cell component `Position { x: i8, y: i8 }` from `src/main.rs`,
modelled with unbounded integers. -/
structure Position where
  x : Int
  y : Int
deriving DecidableEq

/-- The 4-way direction enum `Dir` from `src/main.rs`. -/
inductive Dir where
  | up
  | right
  | down
  | left
deriving DecidableEq

/-- Spec §3: total opposite-direction relation on `Dir`. -/
def Dir.opposite : Dir → Dir
  | .up => .down
  | .down => .up
  | .left => .right
  | .right => .left

/-- Spec §3: `delta(d) -> (dx, dy)` with `Up=(0,+1), Down=(0,-1),
Right=(+1,0), Left=(-1,0)`. -/
def Dir.delta : Dir → Int × Int
  | .up => (0, 1)
  | .down => (0, -1)
  | .right => (1, 0)
  | .left => (-1, 0)

/-- The head-coordinate update of `move_snake` (`src/main.rs`, the `match
head_direction.0` block): decrement / increment one coordinate. -/
def applyDir (p : Position) : Dir → Position
  | .left => { p with x := p.x - 1 }
  | .right => { p with x := p.x + 1 }
  | .up => { p with y := p.y + 1 }
  | .down => { p with y := p.y - 1 }

/-- The snake's game state: the head entity's `Position`, `Direction`,
`LastDirection` and `Ate` components, plus the positions of the body
segments in `NextSegment`-chain (head-to-tail) order. -/
structure Snake where
  headPos : Position
  dir : Dir
  lastDir : Dir
  ate : Bool
  body : List Position
deriving DecidableEq

/-- The body-walk loop of `move_snake` (`src/main.rs`): each segment takes the
rolling carry (`prev_pos`) and leaves its old position as the new carry.
Returns the shifted list together with the final carry (the position the old
tail vacated). -/
def shiftBody (carry : Position) : List Position → List Position × Position
  | [] => ([], carry)
  | old :: rest =>
    let r := shiftBody old rest
    (carry :: r.1, r.2)

/-- `move_snake` from `src/main.rs` (first iteration), restricted to the game
state it touches: save the head position, move the head by its direction, set
`LastDirection`, shift the body with the rolling carry, and, if `Ate` is set
and the walk found a last segment, clear the flag and append a new tail
segment at the final carry position. When the body is empty the walk never
finds a last segment, so the `Ate` branch does nothing. -/
def move_snake (s : Snake) : Snake :=
  let new_head := applyDir s.headPos s.dir
  let r := shiftBody s.headPos s.body
  if s.ate && !s.body.isEmpty then
    { headPos := new_head, dir := s.dir, lastDir := s.dir, ate := false,
      body := r.1 ++ [r.2] }
  else
    { headPos := new_head, dir := s.dir, lastDir := s.dir, ate := s.ate,
      body := r.1 }

theorem shiftBody_eq (carry : Position) (l : List Position) :
    shiftBody carry l = ((carry :: l).dropLast, l.getLastD carry) := by
  induction l generalizing carry with
  | nil => rfl
  | cons a t ih =>
    simp only [shiftBody, ih a, List.getLastD_cons]
    cases t <;> rfl

theorem move_snake_headPos (s : Snake) :
    (move_snake s).headPos = applyDir s.headPos s.dir := by
  unfold move_snake
  split <;> rfl

theorem move_snake_lastDir (s : Snake) : (move_snake s).lastDir = s.dir := by
  unfold move_snake
  split <;> rfl

theorem move_snake_dir (s : Snake) : (move_snake s).dir = s.dir := by
  unfold move_snake
  split <;> rfl

theorem move_snake_body_of_not_grow (s : Snake)
    (h : s.ate = false ∨ s.body = []) :
    (move_snake s).body = (s.headPos :: s.body).dropLast := by
  unfold move_snake
  rw [shiftBody_eq]
  rcases h with h | h <;> simp [h]

theorem move_snake_body_of_grow (s : Snake) (ha : s.ate = true)
    (hb : s.body ≠ []) :
    (move_snake s).body = s.headPos :: s.body := by
  unfold move_snake
  rw [shiftBody_eq]
  have hne : s.body.isEmpty = false := by
    cases hbody : s.body with
    | nil => exact absurd hbody hb
    | cons a t => rfl
  simp only [ha, hne, Bool.not_false, Bool.and_true, if_pos]
  have : (s.headPos :: s.body).dropLast ++ [s.body.getLastD s.headPos] =
      s.headPos :: s.body := by
    cases hbody : s.body with
    | nil => exact absurd hbody hb
    | cons a t =>
      rw [List.getLastD_cons]
      have := List.dropLast_concat_getLast
        (l := s.headPos :: a :: t) (by simp)
      rw [← this]
      congr 1
      congr 1
      rw [List.getLast_cons (by simp), List.getLast_eq_getLastD]
  rw [this]

theorem move_snake_ate (s : Snake) :
    (move_snake s).ate = (s.ate && s.body.isEmpty) := by
  unfold move_snake
  rcases ha : s.ate with _ | _ <;> rcases hb : s.body with _ | ⟨a, t⟩ <;> simp

/-- The shifted body, restricted to the indices of the pre-step segments,
agrees with the pre-step chain `head :: body`: segment `i` now sits where its
predecessor sat before the step, whether or not a tail was appended. -/
theorem move_snake_body_getElem (s : Snake) (i : Nat) (hi : i < s.body.length) :
    (move_snake s).body[i]? = (s.headPos :: s.body)[i]? := by
  have hdrop : ((s.headPos :: s.body).dropLast)[i]? = (s.headPos :: s.body)[i]? := by
    rw [List.getElem?_dropLast, if_pos]
    simpa using hi
  by_cases hg : s.ate = true ∧ s.body ≠ []
  · rw [move_snake_body_of_grow s hg.1 hg.2]
  · have h' : s.ate = false ∨ s.body = [] := by
      rcases ha : s.ate with _ | _
      · exact Or.inl rfl
      · right
        by_contra hne
        exact hg ⟨ha, hne⟩
    rw [move_snake_body_of_not_grow s h', hdrop]

/-- C1: after a movement step fires, the head's coordinate is its pre-step
coordinate plus `delta(Direction)`, `LastDirection` becomes the direction
just applied, and every pre-existing body segment's coordinate equals the
coordinate its predecessor in the chain occupied before the step (the
rolling-carry follow-the-leader shift). -/
theorem C1_follow_the_leader_step (s : Snake) (i : Nat)
    (hi : i < s.body.length) :
    (move_snake s).headPos.x = s.headPos.x + (Dir.delta s.dir).1 ∧
    (move_snake s).headPos.y = s.headPos.y + (Dir.delta s.dir).2 ∧
    (move_snake s).lastDir = s.dir ∧
    (move_snake s).body[i]? = (s.headPos :: s.body)[i]? := by
  refine ⟨?_, ?_, move_snake_lastDir s, move_snake_body_getElem s i hi⟩ <;>
    rw [move_snake_headPos] <;> cases s.dir <;>
    simp [applyDir, Dir.delta] <;> ring

/-- Witness for C1 at a concrete snake. -/
theorem C1_follow_the_leader_step_witness :
    (move_snake ⟨⟨5, 5⟩, .right, .right, false, [⟨4, 5⟩]⟩).headPos.x =
        (5 : Int) + (Dir.delta .right).1 ∧
    (move_snake ⟨⟨5, 5⟩, .right, .right, false, [⟨4, 5⟩]⟩).headPos.y =
        (5 : Int) + (Dir.delta .right).2 ∧
    (move_snake ⟨⟨5, 5⟩, .right, .right, false, [⟨4, 5⟩]⟩).lastDir = .right ∧
    (move_snake ⟨⟨5, 5⟩, .right, .right, false, [⟨4, 5⟩]⟩).body[0]? =
        ((⟨5, 5⟩ : Position) :: [⟨4, 5⟩])[0]? :=
  C1_follow_the_leader_step ⟨⟨5, 5⟩, .right, .right, false, [⟨4, 5⟩]⟩ 0
    (by decide)

/-- C2: a movement step keeps the chain length unchanged when `Ate` is false;
when `Ate` is true it clears the flag, appends exactly one new tail at the
position the old tail vacated (the final carry, i.e. the old tail's pre-step
position), and the old tail ends the step at its pre-step predecessor's
position. -/
theorem C2_growth_round_trip (s : Snake) (hb : s.body ≠ []) :
    (s.ate = false →
      (move_snake s).body.length = s.body.length ∧ (move_snake s).ate = false) ∧
    (s.ate = true →
      (move_snake s).ate = false ∧
      (move_snake s).body.length = s.body.length + 1 ∧
      (move_snake s).body.getLast? = s.body.getLast? ∧
      (move_snake s).body[s.body.length - 1]? =
        (s.headPos :: s.body)[s.body.length - 1]?) := by
  constructor
  · intro ha
    constructor
    · rw [move_snake_body_of_not_grow s (Or.inl ha)]
      simp
    · rw [move_snake_ate, ha]
      rfl
  · intro ha
    refine ⟨?_, ?_, ?_, ?_⟩
    · rw [move_snake_ate, ha]
      cases hbody : s.body with
      | nil => exact absurd hbody hb
      | cons a t => rfl
    · rw [move_snake_body_of_grow s ha hb]
      simp
    · rw [move_snake_body_of_grow s ha hb]
      cases hbody : s.body with
      | nil => exact absurd hbody hb
      | cons a t => simp
    · refine move_snake_body_getElem s (s.body.length - 1) ?_
      cases hbody : s.body with
      | nil => exact absurd hbody hb
      | cons a t => simp

/-- Witness for C2 at a concrete one-body-segment snake with `Ate` set. -/
theorem C2_growth_round_trip_witness :
    (move_snake ⟨⟨5, 5⟩, .right, .right, true, [⟨4, 5⟩]⟩).ate = false ∧
    (move_snake ⟨⟨5, 5⟩, .right, .right, true, [⟨4, 5⟩]⟩).body.length =
      [(⟨4, 5⟩ : Position)].length + 1 ∧
    (move_snake ⟨⟨5, 5⟩, .right, .right, true, [⟨4, 5⟩]⟩).body.getLast? =
      [(⟨4, 5⟩ : Position)].getLast? ∧
    (move_snake ⟨⟨5, 5⟩, .right, .right, true, [⟨4, 5⟩]⟩).body[
        [(⟨4, 5⟩ : Position)].length - 1]? =
      ((⟨5, 5⟩ : Position) :: [⟨4, 5⟩])[[(⟨4, 5⟩ : Position)].length - 1]? :=
  (C2_growth_round_trip ⟨⟨5, 5⟩, .right, .right, true, [⟨4, 5⟩]⟩
    (by decide)).2 rfl

/-- `FIELD_WIDTH` from `src/main.rs` (a `u8` cast to `i8` in the check). -/
def FIELD_WIDTH : Int := 10

/-- `FIELD_HEIGHT` from `src/main.rs` (a `u8` cast to `i8` in the check). -/
def FIELD_HEIGHT : Int := 10

/-- The condition of `check_border_collision` (`src/main.rs`): game over when
the head position is left of / right of / below / above the field. -/
def check_border_collision (p : Position) : Bool :=
  decide (p.x < 0) || decide (p.x ≥ FIELD_WIDTH) ||
    decide (p.y < 0) || decide (p.y ≥ FIELD_HEIGHT)

/-- C7: the border check signals game over exactly when the head lies outside
the inclusive rectangle `0..FIELD_WIDTH-1 × 0..FIELD_HEIGHT-1`; the outermost
legal cells do not trigger it and the cells one step beyond each edge do. -/
theorem C7_border_exact_at_boundaries :
    (∀ p : Position, check_border_collision p = true ↔
      ¬(0 ≤ p.x ∧ p.x ≤ FIELD_WIDTH - 1 ∧ 0 ≤ p.y ∧ p.y ≤ FIELD_HEIGHT - 1)) ∧
    check_border_collision ⟨0, 0⟩ = false ∧
    check_border_collision ⟨FIELD_WIDTH - 1, FIELD_HEIGHT - 1⟩ = false ∧
    check_border_collision ⟨0, FIELD_HEIGHT - 1⟩ = false ∧
    check_border_collision ⟨FIELD_WIDTH - 1, 0⟩ = false ∧
    check_border_collision ⟨-1, 0⟩ = true ∧
    check_border_collision ⟨FIELD_WIDTH, 0⟩ = true ∧
    check_border_collision ⟨0, -1⟩ = true ∧
    check_border_collision ⟨0, FIELD_HEIGHT⟩ = true := by
  refine ⟨?_, by decide, by decide, by decide, by decide, by decide, by decide,
    by decide, by decide⟩
  intro p
  simp only [check_border_collision, FIELD_WIDTH, FIELD_HEIGHT,
    Bool.or_eq_true, decide_eq_true_eq]
  omega

/-- The loop body of `check_self_collision` (`src/main.rs`): the head position
is compared coordinate-wise with every body segment position. -/
def check_self_collision (head : Position) (body : List Position) : Bool :=
  body.any fun b => head.x == b.x && head.y == b.y

theorem check_self_collision_eq_mem (head : Position) (body : List Position) :
    check_self_collision head body = true ↔ head ∈ body := by
  simp only [check_self_collision, List.any_eq_true, Bool.and_eq_true,
    beq_iff_eq]
  constructor
  · rintro ⟨b, hb, hx, hy⟩
    have hhb : head = b := by
      cases head
      cases b
      simp_all
    rwa [hhb]
  · intro hmem
    exact ⟨head, hmem, rfl, rfl⟩

/-- One movement tick of the `Update` pipeline of `src/main.rs`, restricted to
the two systems that matter for self collision: `move_snake` mutates the
chain, then `check_self_collision` reads the resulting (post-shift) positions
and emits the game-over signal without touching the chain. -/
def move_frame (s : Snake) : Snake × Bool :=
  let s2 := move_snake s
  (s2, check_self_collision s2.headPos s2.body)

/-- C8: the self-collision signal of a movement tick is true exactly when the
head's post-move coordinate equals some body segment's post-move coordinate;
the state handed on is the moved chain itself (the check mutates nothing).
On the concrete 4-segment snake, a head move into the just-vacated tail cell
does not fire (the check sees final positions only, so it is never one tick
early), while a head move onto a still-occupied cell fires on that tick. -/
theorem C8_self_collision_final_positions :
    (∀ s : Snake, ((move_frame s).2 = true ↔
        (move_snake s).headPos ∈ (move_snake s).body) ∧
      (move_frame s).1 = move_snake s) ∧
    (move_frame ⟨⟨0, 0⟩, .right, .right, false,
      [⟨0, 1⟩, ⟨1, 1⟩, ⟨1, 0⟩]⟩).2 = false ∧
    (move_frame ⟨⟨0, 0⟩, .up, .right, false,
      [⟨0, 1⟩, ⟨1, 1⟩, ⟨1, 0⟩]⟩).2 = true := by
  refine ⟨fun s => ⟨?_, rfl⟩, by decide, by decide⟩
  exact check_self_collision_eq_mem (move_snake s).headPos (move_snake s).body

/-- The per-key body of `player_input` (`src/main.rs`): a request for
direction `d` overwrites the head's prospective `Direction` only when
`LastDirection` is not the direction whose reversal `d` would be; otherwise
the current prospective direction is kept. -/
def player_input (cur last : Dir) : Dir → Dir
  | .left => if last ≠ .right then .left else cur
  | .right => if last ≠ .left then .right else cur
  | .up => if last ≠ .down then .up else cur
  | .down => if last ≠ .up then .down else cur

/-- C6: a single direction request updates the prospective direction iff the
requested direction is not the opposite of `LastDirection`; a reversal
request is silently ignored and leaves the direction unchanged. -/
theorem C6_reversal_requests_ignored (cur last d : Dir) :
    (d ≠ Dir.opposite last → player_input cur last d = d) ∧
    (d = Dir.opposite last → player_input cur last d = cur) := by
  cases d <;> cases last <;> simp [player_input, Dir.opposite]

/-- Witness for C6: requesting left while the last move was right (its
opposite) leaves the prospective direction (up) unchanged. -/
theorem C6_reversal_requests_ignored_witness :
    player_input .up .right .left = .up :=
  (C6_reversal_requests_ignored .up .right .left).2 (by decide)

/-- `SegmentType` from `src/snake/mod.rs`: straight pipes, the four corner
categories, the four tail caps, and the fallback. -/
inductive SegmentType where
  | horizontal
  | vertical
  | cornerRightUp
  | cornerDownRight
  | cornerLeftDown
  | cornerUpLeft
  | tailUp
  | tailRight
  | tailDown
  | tailLeft
  | none
deriving DecidableEq

/-- `get_direction_between_positions` from `src/snake/mod.rs`: the direction
`d` with `from + delta(d) = to`, or `none` when the cells are not
unit-grid-adjacent. -/
def get_direction_between_positions (fromP toP : Position) : Option Dir :=
  let dx := toP.x - fromP.x
  let dy := toP.y - fromP.y
  if dx = 1 ∧ dy = 0 then some .right
  else if dx = -1 ∧ dy = 0 then some .left
  else if dx = 0 ∧ dy = 1 then some .up
  else if dx = 0 ∧ dy = -1 then some .down
  else none

/-- `determine_segment_type` from `src/snake/mod.rs`: flip the direction from
the predecessor into an incoming connection, keep the direction to the
successor as the outgoing connection, and classify the pair. -/
def determine_segment_type (prev_pos current_pos next_pos : Position) :
    SegmentType :=
  let direction_from_prev :=
    get_direction_between_positions prev_pos current_pos
  let direction_to_next :=
    get_direction_between_positions current_pos next_pos
  let incoming_connection : Option Dir :=
    match direction_from_prev with
    | some .up => some .down
    | some .down => some .up
    | some .left => some .right
    | some .right => some .left
    | Option.none => Option.none
  let outgoing_connection := direction_to_next
  match incoming_connection, outgoing_connection with
  | some .left, some .left | some .right, some .right => .horizontal
  | some .up, some .up | some .down, some .down => .vertical
  | some .left, some .right | some .right, some .left => .horizontal
  | some .up, some .down | some .down, some .up => .vertical
  | some .down, some .right => .cornerDownRight
  | some .left, some .down => .cornerLeftDown
  | some .up, some .left => .cornerUpLeft
  | some .right, some .up => .cornerRightUp
  | some .right, some .down => .cornerDownRight
  | some .down, some .left => .cornerLeftDown
  | some .left, some .up => .cornerUpLeft
  | some .up, some .right => .cornerRightUp
  | _, _ => .none

/-- `determine_tail_type` from `src/snake/mod.rs`: classify the tail cap by
the direction from its predecessor to the tail. -/
def determine_tail_type (prev_pos tail_pos : Position) : SegmentType :=
  match get_direction_between_positions prev_pos tail_pos with
  | some .left => .tailLeft
  | some .right => .tailRight
  | some .up => .tailUp
  | some .down => .tailDown
  | Option.none => .none

/-- C5 counterexample: on the fixed chain `[(0,0), (−1,0), (−1,1)]` the middle
segment does NOT classify as `CornerLeftDown` (its connections are Right,
toward the head at (0,0), and Up, toward the tail at (−1,1)). -/
theorem C5_counterexample :
    determine_segment_type ⟨0, 0⟩ ⟨-1, 0⟩ ⟨-1, 1⟩ ≠
      SegmentType.cornerLeftDown := by
  decide

/-- C5 (amended): on the fixed chain `[(0,0) head, (−1,0), (−1,1)]` the middle
segment classifies as `CornerRightUp` (incoming connection Right, outgoing
connection Up), and the end segment classifies as the tail cap pointing in
the direction from (−1,0) to (−1,1), i.e. `TailUp`. -/
theorem C5_fixed_chain_classification :
    determine_segment_type ⟨0, 0⟩ ⟨-1, 0⟩ ⟨-1, 1⟩ =
      SegmentType.cornerRightUp ∧
    determine_tail_type ⟨-1, 0⟩ ⟨-1, 1⟩ = SegmentType.tailUp := by
  decide

theorem get_direction_between_positions_symm (a b : Position) :
    get_direction_between_positions b a =
      Option.map Dir.opposite (get_direction_between_positions a b) := by
  unfold get_direction_between_positions
  simp only
  split_ifs <;> simp_all [Dir.opposite] <;> omega

/-- C9: the interior-segment classifier is symmetric under reversal of the
traversal order, and non-adjacent triples fall back to `None` in both
orders. -/
theorem C9_classifier_reversal_symmetric (p c n : Position) :
    determine_segment_type p c n = determine_segment_type n c p := by
  unfold determine_segment_type
  rw [get_direction_between_positions_symm c n,
    get_direction_between_positions_symm p c]
  generalize get_direction_between_positions p c = i
  generalize get_direction_between_positions c n = o
  rcases i with _ | di <;> rcases o with _ | e
  · rfl
  · cases e <;> rfl
  · cases di <;> rfl
  · cases di <;> cases e <;> rfl

/-- `TIMER_TURN_DELAY` from `src/main.rs` (an `f32` constant `0.8`, modelled
as the exact rational). -/
def TIMER_TURN_DELAY : ℚ := 0.8

/-- One frame of the timer systems around the movement step, from
`src/main.rs`: `update_timer` subtracts the elapsed time, `move_snake`
returns early unless the accumulator is `<= 0` (the step fires otherwise),
and `reset_timer` restores the delay only when the accumulator is strictly
`< 0`. Returns the end-of-frame accumulator and whether a step fired. -/
def timer_frame (acc dt : ℚ) : ℚ × Bool :=
  let acc1 := acc - dt
  let fired := decide (acc1 ≤ 0)
  (if acc1 < 0 then TIMER_TURN_DELAY else acc1, fired)

/-- C4 counterexample: on a frame whose subtraction lands the accumulator
exactly on `0`, a step fires (the fire condition is `<= 0`) but the
accumulator is NOT reset to the delay constant (the reset condition is
`< 0`), contradicting the claim that every firing frame resets it. -/
theorem C4_counterexample :
    (timer_frame 0.3 0.3).2 = true ∧ (timer_frame 0.3 0.3).1 = 0 ∧
      (0 : ℚ) ≠ TIMER_TURN_DELAY := by
  norm_num [timer_frame, TIMER_TURN_DELAY]

/-- C4 (amended): a step fires exactly when the post-subtraction accumulator
is `<= 0`; the accumulator is reset to the delay constant after a frame whose
post-subtraction value is strictly negative, and is left in place otherwise
(in particular a frame landing exactly on `0` fires without a reset). With
delay `0.8`, three successive `advance(0.3)` frames fire no step on the first
two and exactly one step on the third, which also resets the accumulator. -/
theorem C4_scheduler_amended (acc dt : ℚ) :
    ((timer_frame acc dt).2 = true ↔ acc - dt ≤ 0) ∧
    (acc - dt < 0 → (timer_frame acc dt).1 = TIMER_TURN_DELAY) ∧
    (0 ≤ acc - dt → (timer_frame acc dt).1 = acc - dt) ∧
    ((timer_frame TIMER_TURN_DELAY 0.3).2 = false ∧
      (timer_frame (timer_frame TIMER_TURN_DELAY 0.3).1 0.3).2 = false ∧
      (timer_frame
        (timer_frame (timer_frame TIMER_TURN_DELAY 0.3).1 0.3).1 0.3).2 =
        true ∧
      (timer_frame
        (timer_frame (timer_frame TIMER_TURN_DELAY 0.3).1 0.3).1 0.3).1 =
        TIMER_TURN_DELAY) := by
  refine ⟨?_, ?_, ?_, by norm_num [timer_frame, TIMER_TURN_DELAY]⟩
  · simp [timer_frame]
  · intro h
    show (if acc - dt < 0 then TIMER_TURN_DELAY else acc - dt) =
      TIMER_TURN_DELAY
    rw [if_pos h]
  · intro h
    show (if acc - dt < 0 then TIMER_TURN_DELAY else acc - dt) = acc - dt
    rw [if_neg (not_lt.mpr h)]

/-- Witness for C4 at a concrete firing frame with a strictly negative
accumulator. -/
theorem C4_scheduler_amended_witness :
    (timer_frame 0.8 1).1 = TIMER_TURN_DELAY :=
  (C4_scheduler_amended 0.8 1).2.1 (by norm_num)

/-- The body-walk loop of `movements` (`src/snake/mod.rs`): the same
rolling-carry shift as in `move_snake`, written as the imperative accumulator
loop that pushes each segment's new position as it goes. Returns the pushed
positions and the final carry. -/
def movements_walk (acc : List Position) (carry : Position) :
    List Position → List Position × Position
  | [] => (acc, carry)
  | old :: rest => movements_walk (acc ++ [carry]) old rest

/-- `movements` from `src/snake/mod.rs` (the final iteration), restricted to
the game state it touches: the same head move, `LastDirection` update,
rolling-carry body shift and growth handling as `move_snake`, while also
accumulating the `ordered_segments` list (the moved head first, then each
body segment's new position, then the appended tail when the snake grows)
that feeds the orientation classifier afterwards. -/
def movements (s : Snake) : Snake × List Position :=
  let new_head := applyDir s.headPos s.dir
  let r := movements_walk [] s.headPos s.body
  if s.ate && !s.body.isEmpty then
    ({ headPos := new_head, dir := s.dir, lastDir := s.dir, ate := false,
       body := r.1 ++ [r.2] },
     new_head :: (r.1 ++ [r.2]))
  else
    ({ headPos := new_head, dir := s.dir, lastDir := s.dir, ate := s.ate,
       body := r.1 },
     new_head :: r.1)

theorem movements_walk_eq (acc : List Position) (carry : Position)
    (l : List Position) :
    movements_walk acc carry l =
      (acc ++ (shiftBody carry l).1, (shiftBody carry l).2) := by
  induction l generalizing acc carry with
  | nil => simp [movements_walk, shiftBody]
  | cons old rest ih =>
    simp [movements_walk, shiftBody, ih, List.append_assoc]

/-- C10: given the same pre-step state, the movement step of the first
iteration (`move_snake` in `src/main.rs`) and of the final iteration
(`movements` in `src/snake/mod.rs`) produce the same post-step state:
identical head and body coordinates, identical growth behavior, and the
identical `LastDirection` update. -/
theorem C10_iterations_equivalent (s : Snake) :
    (movements s).1 = move_snake s := by
  unfold movements move_snake
  rw [movements_walk_eq]
  split <;> simp

/-- Unit-grid adjacency of two cells (the cells differ by one step in exactly
one axis). -/
def adjacent (a b : Position) : Prop :=
  (a.x - b.x).natAbs + (a.y - b.y).natAbs = 1

instance (a b : Position) : Decidable (adjacent a b) := by
  unfold adjacent
  infer_instance

/-- The occupied cells of the snake in head-to-tail order. -/
def chain (s : Snake) : List Position := s.headPos :: s.body

/-- A simple path on the grid: consecutive cells are unit-adjacent and all
cells are pairwise distinct. -/
def isSimplePath (l : List Position) : Prop :=
  List.Chain' adjacent l ∧ l.Nodup

/-- The game-over signal of a movement tick: `check_border_collision` and
`check_self_collision` both run right after `move_snake` in the `Update`
chain of `src/main.rs` and read the post-move positions. -/
def game_over_signal (s : Snake) : Bool :=
  check_border_collision s.headPos || check_self_collision s.headPos s.body

/-- The initial layout of `setup_game` (`src/main.rs`): one body segment at
(4,5), the head at (5,5) facing Right with `LastDirection` Right and `Ate`
unset. -/
def initial_snake : Snake :=
  { headPos := ⟨5, 5⟩, dir := .right, lastDir := .right, ate := false,
    body := [⟨4, 5⟩] }

/-- Snake states reachable while the game stays in the `InGame` state:
starting from `setup_game`'s layout, the food system may set `Ate` at any
time, and a movement step may fire after the input system overwrote the
prospective direction with any accepted request (each request is filtered
against `LastDirection`); the post-move state must pass both collision
checks, since a failing check leaves `InGame` and halts further steps. -/
inductive Reachable : Snake → Prop where
  | init : Reachable initial_snake
  | eat (s : Snake) (hs : Reachable s) : Reachable { s with ate := true }
  | step (s : Snake) (d : Dir) (hs : Reachable s)
      (hd : d = s.dir ∨ d ≠ Dir.opposite s.lastDir)
      (hplay : game_over_signal (move_snake { s with dir := d }) = false) :
      Reachable (move_snake { s with dir := d })

theorem adjacent_applyDir (p : Position) (d : Dir) :
    adjacent (applyDir p d) p := by
  cases d <;> simp [adjacent, applyDir]

theorem move_snake_headPos_not_mem_body (s : Snake)
    (hself : check_self_collision (move_snake s).headPos
      (move_snake s).body = false) :
    (move_snake s).headPos ∉ (move_snake s).body := by
  intro hmem
  rw [(check_self_collision_eq_mem _ _).mpr hmem] at hself
  simp at hself

theorem move_snake_preserves_simple_path (s : Snake) (hb : s.body ≠ [])
    (hpath : isSimplePath (chain s))
    (hself : check_self_collision (move_snake s).headPos
      (move_snake s).body = false) :
    (move_snake s).body ≠ [] ∧ isSimplePath (chain (move_snake s)) := by
  obtain ⟨hchain, hnodup⟩ := hpath
  simp only [chain] at hchain hnodup
  have hnotmem := move_snake_headPos_not_mem_body s hself
  have hhead := move_snake_headPos s
  by_cases ha : s.ate = true
  · -- growth step: the new body is exactly the old chain
    have hbody := move_snake_body_of_grow s ha hb
    rw [hbody, hhead] at hnotmem
    simp only [isSimplePath, chain, hbody, hhead]
    refine ⟨by simp, ?_, ?_⟩
    · rw [List.chain'_cons]
      exact ⟨adjacent_applyDir s.headPos s.dir, hchain⟩
    · rw [List.nodup_cons]
      exact ⟨hnotmem, hnodup⟩
  · -- ordinary step: the new body is the old chain minus its last cell
    have hbody := move_snake_body_of_not_grow s
      (Or.inl (Bool.not_eq_true _ ▸ ha))
    rw [hbody, hhead] at hnotmem
    obtain ⟨a, t, hbt⟩ : ∃ a t, s.body = a :: t := by
      cases hsb : s.body with
      | nil => exact absurd hsb hb
      | cons a t => exact ⟨a, t, rfl⟩
    have hdrop : (s.headPos :: s.body).dropLast =
        s.headPos :: s.body.dropLast := by
      rw [hbt]
      exact List.dropLast_cons₂
    simp only [isSimplePath, chain, hbody, hhead]
    refine ⟨by simp [hdrop], ?_, ?_⟩
    · rw [hdrop, List.chain'_cons]
      refine ⟨adjacent_applyDir s.headPos s.dir, ?_⟩
      rw [← hdrop]
      exact List.Chain'.init hchain
    · rw [List.nodup_cons]
      exact ⟨hnotmem,
        List.Nodup.sublist (List.dropLast_sublist _) hnodup⟩

theorem reachable_invariant (s : Snake) (hs : Reachable s) :
    s.body ≠ [] ∧ isSimplePath (chain s) := by
  induction hs with
  | init =>
    refine ⟨by simp [initial_snake], ?_, by decide⟩
    show List.Chain' adjacent [⟨5, 5⟩, ⟨4, 5⟩]
    exact List.chain'_pair.mpr (by decide)
  | eat s hs ih => exact ih
  | step s d hs hd hplay ih =>
    have hself : check_self_collision
        (move_snake { s with dir := d }).headPos
        (move_snake { s with dir := d }).body = false := by
      simp only [game_over_signal, Bool.or_eq_false_iff] at hplay
      exact hplay.2
    exact ⟨(move_snake_preserves_simple_path { s with dir := d } ih.1
        ih.2 hself).1,
      (move_snake_preserves_simple_path { s with dir := d } ih.1
        ih.2 hself).2⟩

/-- C3: starting from the initial two-adjacent-cell layout, in every state
reachable while the game remains in play — after any number of movement
steps, with or without growth — the occupied coordinates in head-to-tail
order form a simple path of unit-grid-adjacent, pairwise-distinct cells. -/
theorem C3_chain_is_simple_path (s : Snake) (hs : Reachable s) :
    isSimplePath (chain s) :=
  (reachable_invariant s hs).2

/-- Witness for C3 at the initial state. -/
theorem C3_chain_is_simple_path_witness : isSimplePath (chain initial_snake) :=
  C3_chain_is_simple_path initial_snake Reachable.init

end BevySnake
